import Mathlib

/-!
Shallow embedding of the ensemble composition and tensor-routing engine of
`gravswell.quiver` (`gravswell/quiver/model.py`), of the exposed-tensor
shape validation (`gravswell/quiver/platforms/platform.py`) and of the
local filesystem operations the model version logic relies on
(`gravswell/quiver/io/local.py`).

Python's in-place mutation is modelled by explicit state passing.  Results
of operations that can raise carry the post-state as well, because a raised
exception leaves every mutation performed before the raise in place.
-/

namespace GWQuiver

/-- SHAPE_TYPE: a shape is a sequence of axis sizes, with `none` marking a
variable-length (batch) axis. -/
abbrev Shape := List (Option Int)

/-- Dims as recorded in a model config: integers, `-1` for a variable axis. -/
abbrev Dims := List Int

/-- model.py lines 15-34: an input or output tensor of a model.  The owning
model is represented by its repository-unique name. -/
structure ExposedTensor where
  modelName : String
  name : String
  shape : Shape
deriving DecidableEq

/-- One entry of `config.ensemble_scheduling.step`: the member model's name,
an optionally pinned version, and the protobuf name-to-key maps. -/
structure Step where
  model_name : String
  version : Option Int
  input_map : List (String × String)
  output_map : List (String × String)
deriving DecidableEq

/-- The part of an ensemble's `ModelConfig` that the routing engine reads
and writes: the declared ensemble inputs and outputs (name and dims) and
the step list. -/
structure EnsembleConfig where
  input : List (String × Dims)
  output : List (String × Dims)
  step : List Step
deriving DecidableEq

/-- The error taxonomy of the spec; each constructor corresponds to one
distinct raise site in the source. -/
inductive QuiverError where
  | configurationError
  | invalidShape
  | shapeMismatch
  | duplicateKey
  | keyConflict
deriving DecidableEq

/-- Protobuf map read: a missing key reads as the empty string. -/
def mapGet : List (String × String) → String → String
  | [], _ => ""
  | p :: rest, k => if p.fst = k then p.snd else mapGet rest k

/-- Protobuf map write `m[k] = v`: replace the binding of `k` in place,
appending a new entry when `k` is unbound. -/
def mapSet (m : List (String × String)) (k v : String) : List (String × String) :=
  if m.any (fun p => p.fst = k) then m.map (fun p => if p.fst = k then (k, v) else p)
  else m ++ [(k, v)]

/-- Python `key or default` on an optional string argument: `None` and the
empty string both fall back to the default. -/
def pyOrStr (k : Option String) (d : String) : String :=
  match k with
  | some s => if s = "" then d else s
  | none => d

/-- Modelled from the spec: `ModelConfig.add_input`/`add_output` (the Config
capability, whose source is not under src/) record a tensor's dims with a
wildcard axis stored as -1, the inverse of the -1-to-None conversion in
model.py line 113. -/
def specDims (s : Shape) : Dims := s.map (fun d => d.getD (-1))

def stepNames (cfg : EnsembleConfig) : List String := cfg.step.map Step.model_name

def inputNames (cfg : EnsembleConfig) : List String := cfg.input.map Prod.fst

def outputNames (cfg : EnsembleConfig) : List String := cfg.output.map Prod.fst

/-- The guarded step creation shared by add_input/add_output/pipe (model.py
lines 295-296, 316-317 and 401-404): if the tensor's model is not among the
ensemble's member models, call `Config.add_step` (modelled from the spec:
Config.add_step appends a step for the model, with empty routing maps).
Membership of a model object in `self.models` amounts to membership of its
name among the step model names, since a repository keys models by name. -/
def ensureStep (cfg : EnsembleConfig) (m : String) (v : Option Int) : EnsembleConfig :=
  if m ∈ stepNames cfg then cfg
  else { cfg with step := cfg.step ++ [⟨m, v, [], []⟩] }

/-- The EXPOSED_TYPE tag selecting `input_map` or `output_map`. -/
inductive ExposedKind where
  | input
  | output
deriving DecidableEq

def setStepMap (s : Step) (ty : ExposedKind) (tname key : String) : Step :=
  match ty with
  | .input => { s with input_map := mapSet s.input_map tname key }
  | .output => { s with output_map := mapSet s.output_map tname key }

/-- The per-step action of `_update_step_map`: steps of the tensor's model
get `step_map[tensor.name] = key`, other steps are untouched. -/
def updFun (t : ExposedTensor) (key : String) (ty : ExposedKind) (s : Step) : Step :=
  if s.model_name = t.modelName then setStepMap s ty t.name key else s

/-- model.py lines 276-287 `_update_step_map`: set
`step_map[tensor.name] = key` on every step whose model name matches the
tensor's owning model. -/
def updateStepMap (cfg : EnsembleConfig) (t : ExposedTensor) (key : String)
    (ty : ExposedKind) : EnsembleConfig :=
  { cfg with step := cfg.step.map (updFun t key ty) }

/-- Result of a mutating ensemble operation.  `ok` carries the new
configuration and the routing key the operation resolved internally
(the `key` local of the source); `error` carries the configuration as the
raise leaves it behind (mutations before the raise survive). -/
inductive EnsResult where
  | ok (cfg : EnsembleConfig) (key : String)
  | error (e : QuiverError) (cfg : EnsembleConfig)
deriving DecidableEq

/-- model.py lines 289-308 `EnsembleModel.add_input`: ensure a step for the
tensor's model, resolve the key (caller-supplied or the tensor name), raise
`DuplicateKeyError` if that key already names an ensemble input (leaving the
freshly ensured step in place), otherwise declare the ensemble input and
record the key in the step's input map. -/
def add_input (cfg : EnsembleConfig) (t : ExposedTensor) (version : Option Int)
    (key : Option String) : EnsResult :=
  if pyOrStr key t.name ∈ inputNames (ensureStep cfg t.modelName version) then
    EnsResult.error QuiverError.duplicateKey (ensureStep cfg t.modelName version)
  else
    EnsResult.ok
      (updateStepMap
        { ensureStep cfg t.modelName version with
          input := (ensureStep cfg t.modelName version).input
            ++ [(pyOrStr key t.name, specDims t.shape)] }
        t (pyOrStr key t.name) ExposedKind.input)
      (pyOrStr key t.name)

/-- model.py lines 310-329 `EnsembleModel.add_output`.  Line 322 of the
source checks the new key against `self.inputs` (the ensemble input names),
not against the outputs, and this embedding reproduces that check. -/
def add_output (cfg : EnsembleConfig) (t : ExposedTensor) (version : Option Int)
    (key : Option String) : EnsResult :=
  if pyOrStr key t.name ∈ inputNames (ensureStep cfg t.modelName version) then
    EnsResult.error QuiverError.duplicateKey (ensureStep cfg t.modelName version)
  else
    EnsResult.ok
      (updateStepMap
        { ensureStep cfg t.modelName version with
          output := (ensureStep cfg t.modelName version).output
            ++ [(pyOrStr key t.name, specDims t.shape)] }
        t (pyOrStr key t.name) ExposedKind.output)
      (pyOrStr key t.name)

/-- The for/break search of model.py lines 408-410 and 438-440: the first
step whose model name matches. -/
def findStep : List Step → String → Option Step
  | [], _ => none
  | s :: rest, m => if s.model_name = m then some s else findStep rest m

/-- Reading `step.output_map[name]` on the first step of model `m`.  The
missing-step default is unreachable after the ensure-step phase and
coincides with the protobuf empty-map default. -/
def getOutKey (cfg : EnsembleConfig) (m tname : String) : String :=
  match findStep cfg.step m with
  | some s => mapGet s.output_map tname
  | none => ""

def getInKey (cfg : EnsembleConfig) (m tname : String) : String :=
  match findStep cfg.step m with
  | some s => mapGet s.input_map tname
  | none => ""

/-- model.py lines 437-457, the inbound half of `pipe`: bind the inbound
tensor's input-map entry to the resolved key, or check it against an
existing binding. -/
def pipeInbound (cfg : EnsembleConfig) (inbound : ExposedTensor) (key : String) : EnsResult :=
  if getInKey cfg inbound.modelName inbound.name = "" then
    EnsResult.ok (updateStepMap cfg inbound key ExposedKind.input) key
  else if getInKey cfg inbound.modelName inbound.name ≠ key then
    EnsResult.error QuiverError.keyConflict cfg
  else EnsResult.ok cfg key

/-- model.py lines 406-435, the outbound half of `pipe`: resolve the routing
key from the outbound tensor's output-map entry and the optional caller
key, then hand over to the inbound half. -/
def pipeOut (cfg : EnsembleConfig) (outbound inbound : ExposedTensor)
    (key : Option String) : EnsResult :=
  if getOutKey cfg outbound.modelName outbound.name = "" then
    pipeInbound (updateStepMap cfg outbound (pyOrStr key outbound.name) ExposedKind.output)
      inbound (pyOrStr key outbound.name)
  else
    match key with
    | some k0 =>
        if getOutKey cfg outbound.modelName outbound.name = k0 then pipeInbound cfg inbound k0
        else EnsResult.error QuiverError.keyConflict cfg
    | none => pipeInbound cfg inbound (getOutKey cfg outbound.modelName outbound.name)

/-- model.py lines 385-457 `EnsembleModel.pipe`: shape check, ensure steps
for the inbound and then the outbound model, then resolve and record the
routing key on both sides. -/
def pipe (cfg : EnsembleConfig) (outbound inbound : ExposedTensor)
    (key : Option String) : EnsResult :=
  if outbound.shape = inbound.shape then
    pipeOut (ensureStep (ensureStep cfg inbound.modelName none) outbound.modelName none)
      outbound inbound key
  else EnsResult.error QuiverError.shapeMismatch cfg

/-! Basic lemmas about the protobuf map model. -/

theorem map_upd_of_not_any (m : List (String × String)) (k v : String)
    (h : m.any (fun p => p.fst = k) = false) :
    m.map (fun p => if p.fst = k then (k, v) else p) = m := by
  induction m with
  | nil => rfl
  | cons a t ih =>
      simp only [List.any_cons, Bool.or_eq_false_iff, decide_eq_false_iff_not] at h
      simp only [List.map_cons, if_neg h.1]
      rw [ih h.2]

theorem any_map_upd (m : List (String × String)) (k v : String) :
    (m.map (fun p => if p.fst = k then (k, v) else p)).any (fun p => p.fst = k)
      = m.any (fun p => p.fst = k) := by
  induction m with
  | nil => rfl
  | cons a t ih =>
      by_cases h : a.fst = k
      · simp [h]
      · simp [h, ih]

theorem map_upd_map_upd (m : List (String × String)) (k v : String) :
    (m.map (fun p => if p.fst = k then (k, v) else p)).map
        (fun p => if p.fst = k then (k, v) else p)
      = m.map (fun p => if p.fst = k then (k, v) else p) := by
  induction m with
  | nil => rfl
  | cons a t ih =>
      by_cases h : a.fst = k
      · simp [h, ih]
      · simp [h, ih]

theorem mapGet_map_upd (m : List (String × String)) (k v : String) :
    mapGet (m.map (fun p => if p.fst = k then (k, v) else p)) k
      = if m.any (fun p => p.fst = k) then v else "" := by
  induction m with
  | nil => rfl
  | cons a t ih =>
      by_cases h : a.fst = k
      · simp [mapGet, h]
      · simp only [List.map_cons, if_neg h, mapGet, List.any_cons, decide_eq_false h,
          Bool.false_or]
        exact ih

theorem mapGet_append_single (m : List (String × String)) (k v : String)
    (h : m.any (fun p => p.fst = k) = false) :
    mapGet (m ++ [(k, v)]) k = v := by
  induction m with
  | nil => simp [mapGet]
  | cons a t ih =>
      simp only [List.any_cons, Bool.or_eq_false_iff, decide_eq_false_iff_not] at h
      simp only [List.cons_append, mapGet, if_neg h.1]
      exact ih h.2

theorem mapGet_mapSet_self (m : List (String × String)) (k v : String) :
    mapGet (mapSet m k v) k = v := by
  unfold mapSet
  by_cases h : (m.any fun p => p.fst = k) = true
  · rw [if_pos h, mapGet_map_upd, if_pos h]
  · rw [if_neg h]
    rw [Bool.not_eq_true] at h
    exact mapGet_append_single m k v h

theorem mapSet_mapSet_same (m : List (String × String)) (k v : String) :
    mapSet (mapSet m k v) k v = mapSet m k v := by
  unfold mapSet
  by_cases h : (m.any fun p => p.fst = k) = true
  · rw [if_pos h, if_pos (by rw [any_map_upd]; exact h), map_upd_map_upd]
  · rw [if_neg h]
    rw [Bool.not_eq_true] at h
    have hx : ((m ++ [(k, v)]).any fun p => p.fst = k) = true := by
      rw [List.any_append]
      simp
    rw [if_pos hx, List.map_append, map_upd_of_not_any m k v h]
    simp

/-! Lemmas about steps, findStep, ensureStep and updateStepMap. -/

theorem setStepMap_model_name (s : Step) (ty : ExposedKind) (a b : String) :
    (setStepMap s ty a b).model_name = s.model_name := by
  cases ty <;> rfl

theorem setStepMap_out_preserves_in (s : Step) (a b : String) :
    (setStepMap s ExposedKind.output a b).input_map = s.input_map := rfl

theorem setStepMap_in_preserves_out (s : Step) (a b : String) :
    (setStepMap s ExposedKind.input a b).output_map = s.output_map := rfl

theorem setStepMap_idem (s : Step) (ty : ExposedKind) (a b : String) :
    setStepMap (setStepMap s ty a b) ty a b = setStepMap s ty a b := by
  cases ty <;> simp [setStepMap, mapSet_mapSet_same]

theorem setStepMap_cross_comm (s : Step) (a b a' b' : String) :
    setStepMap (setStepMap s ExposedKind.output a b) ExposedKind.input a' b'
      = setStepMap (setStepMap s ExposedKind.input a' b') ExposedKind.output a b := rfl

theorem updFun_model_name (t : ExposedTensor) (key : String) (ty : ExposedKind) (s : Step) :
    (updFun t key ty s).model_name = s.model_name := by
  unfold updFun
  split
  · exact setStepMap_model_name s ty t.name key
  · rfl

theorem updFun_idem (t : ExposedTensor) (key : String) (ty : ExposedKind) (s : Step) :
    updFun t key ty (updFun t key ty s) = updFun t key ty s := by
  unfold updFun
  by_cases h : s.model_name = t.modelName
  · rw [if_pos h, if_pos (by rw [setStepMap_model_name]; exact h), setStepMap_idem]
  · rw [if_neg h, if_neg h]

theorem updFun_cross_comm (t t' : ExposedTensor) (k k' : String) (s : Step) :
    updFun t' k' ExposedKind.input (updFun t k ExposedKind.output s)
      = updFun t k ExposedKind.output (updFun t' k' ExposedKind.input s) := by
  unfold updFun
  by_cases h : s.model_name = t.modelName <;> by_cases h' : s.model_name = t'.modelName
  · simp only [if_pos h, if_pos h', setStepMap_model_name]
    exact setStepMap_cross_comm s t.name k t'.name k'
  · simp only [if_pos h, if_neg h', setStepMap_model_name]
  · simp only [if_neg h, if_pos h', setStepMap_model_name]
  · simp only [if_neg h, if_neg h']

theorem findStep_map (l : List Step) (m : String) (g : Step → Step)
    (hg : ∀ s, (g s).model_name = s.model_name) :
    findStep (l.map g) m = (findStep l m).map g := by
  induction l with
  | nil => rfl
  | cons s t ih =>
      simp only [List.map_cons, findStep, hg s]
      by_cases h : s.model_name = m
      · rw [if_pos h, if_pos h]; rfl
      · rw [if_neg h, if_neg h, ih]

theorem findStep_append_some (l l' : List Step) (m : String) (s : Step)
    (h : findStep l m = some s) : findStep (l ++ l') m = some s := by
  induction l with
  | nil => exact absurd h (by simp [findStep])
  | cons a t ih =>
      simp only [findStep] at h ⊢
      by_cases ha : a.model_name = m
      · rw [if_pos ha] at h ⊢; exact h
      · rw [if_neg ha] at h ⊢; exact ih h

theorem findStep_append_none (l l' : List Step) (m : String)
    (h : findStep l m = none) : findStep (l ++ l') m = findStep l' m := by
  induction l with
  | nil => rfl
  | cons a t ih =>
      simp only [findStep] at h ⊢
      by_cases ha : a.model_name = m
      · rw [if_pos ha] at h; exact absurd h (by simp)
      · rw [if_neg ha] at h ⊢; exact ih h

theorem findStep_some_name (l : List Step) (m : String) (s : Step)
    (h : findStep l m = some s) : s.model_name = m := by
  induction l with
  | nil => exact absurd h (by simp [findStep])
  | cons a t ih =>
      simp only [findStep] at h
      by_cases ha : a.model_name = m
      · rw [if_pos ha] at h; cases h; exact ha
      · rw [if_neg ha] at h; exact ih h

theorem findStep_eq_none (l : List Step) (m : String)
    (h : m ∉ l.map Step.model_name) : findStep l m = none := by
  induction l with
  | nil => rfl
  | cons a t ih =>
      simp only [List.map_cons, List.mem_cons, not_or] at h
      show (if a.model_name = m then some a else findStep t m) = none
      rw [if_neg (fun hh : a.model_name = m => h.1 hh.symm)]
      exact ih h.2

theorem findStep_isSome_of_mem (l : List Step) (m : String)
    (h : m ∈ l.map Step.model_name) : ∃ s, findStep l m = some s := by
  induction l with
  | nil => simp at h
  | cons a t ih =>
      simp only [List.map_cons, List.mem_cons] at h
      by_cases ha : a.model_name = m
      · exact ⟨a, by simp [findStep, ha]⟩
      · have : m ∈ t.map Step.model_name := by
          rcases h with h | h
          · exact absurd h.symm ha
          · exact h
        obtain ⟨s, hs⟩ := ih this
        exact ⟨s, by simp [findStep, ha, hs]⟩

theorem map_model_name_map_g (l : List Step) (g : Step → Step)
    (hg : ∀ s, (g s).model_name = s.model_name) :
    (l.map g).map Step.model_name = l.map Step.model_name := by
  induction l with
  | nil => rfl
  | cons a t ih => simp [hg a, ih]

theorem stepNames_updateStepMap (cfg : EnsembleConfig) (t : ExposedTensor) (key : String)
    (ty : ExposedKind) : stepNames (updateStepMap cfg t key ty) = stepNames cfg := by
  unfold stepNames updateStepMap
  exact map_model_name_map_g cfg.step _ (updFun_model_name t key ty)

theorem ensureStep_of_mem (cfg : EnsembleConfig) (m : String) (v : Option Int)
    (h : m ∈ stepNames cfg) : ensureStep cfg m v = cfg := by
  unfold ensureStep
  rw [if_pos h]

theorem stepNames_ensureStep_self (cfg : EnsembleConfig) (m : String) (v : Option Int) :
    m ∈ stepNames (ensureStep cfg m v) := by
  unfold ensureStep
  by_cases h : m ∈ stepNames cfg
  · rw [if_pos h]; exact h
  · rw [if_neg h]
    simp [stepNames]

theorem stepNames_ensureStep_mono (cfg : EnsembleConfig) (m n : String) (v : Option Int)
    (h : n ∈ stepNames cfg) : n ∈ stepNames (ensureStep cfg m v) := by
  unfold ensureStep
  by_cases hm : m ∈ stepNames cfg
  · rw [if_pos hm]; exact h
  · rw [if_neg hm]
    simp only [stepNames, List.map_append, List.mem_append]
    exact Or.inl h

theorem getOutKey_ensureStep (cfg : EnsembleConfig) (m : String) (v : Option Int)
    (n t : String) : getOutKey (ensureStep cfg m v) n t = getOutKey cfg n t := by
  unfold ensureStep
  by_cases h : m ∈ stepNames cfg
  · rw [if_pos h]
  · rw [if_neg h]
    simp only [getOutKey]
    cases hf : findStep cfg.step n with
    | some s => rw [findStep_append_some cfg.step _ n s hf]
    | none =>
        rw [findStep_append_none cfg.step _ n hf]
        show (match (if m = n then some (⟨m, v, [], []⟩ : Step) else none) with
          | some s => mapGet s.output_map t
          | none => "") = ""
        by_cases hm : m = n
        · rw [if_pos hm]
          rfl
        · rw [if_neg hm]

theorem getInKey_ensureStep (cfg : EnsembleConfig) (m : String) (v : Option Int)
    (n t : String) : getInKey (ensureStep cfg m v) n t = getInKey cfg n t := by
  unfold ensureStep
  by_cases h : m ∈ stepNames cfg
  · rw [if_pos h]
  · rw [if_neg h]
    simp only [getInKey]
    cases hf : findStep cfg.step n with
    | some s => rw [findStep_append_some cfg.step _ n s hf]
    | none =>
        rw [findStep_append_none cfg.step _ n hf]
        show (match (if m = n then some (⟨m, v, [], []⟩ : Step) else none) with
          | some s => mapGet s.input_map t
          | none => "") = ""
        by_cases hm : m = n
        · rw [if_pos hm]
          rfl
        · rw [if_neg hm]

theorem getOutKey_updOut_self (cfg : EnsembleConfig) (t : ExposedTensor) (key : String)
    (h : t.modelName ∈ stepNames cfg) :
    getOutKey (updateStepMap cfg t key ExposedKind.output) t.modelName t.name = key := by
  unfold getOutKey updateStepMap
  rw [findStep_map cfg.step t.modelName _ (updFun_model_name t key ExposedKind.output)]
  obtain ⟨s, hs⟩ := findStep_isSome_of_mem cfg.step t.modelName h
  rw [hs]
  simp only [Option.map_some']
  unfold updFun
  rw [if_pos (findStep_some_name cfg.step t.modelName s hs)]
  exact mapGet_mapSet_self s.output_map t.name key

theorem getInKey_updIn_self (cfg : EnsembleConfig) (t : ExposedTensor) (key : String)
    (h : t.modelName ∈ stepNames cfg) :
    getInKey (updateStepMap cfg t key ExposedKind.input) t.modelName t.name = key := by
  unfold getInKey updateStepMap
  rw [findStep_map cfg.step t.modelName _ (updFun_model_name t key ExposedKind.input)]
  obtain ⟨s, hs⟩ := findStep_isSome_of_mem cfg.step t.modelName h
  rw [hs]
  simp only [Option.map_some']
  unfold updFun
  rw [if_pos (findStep_some_name cfg.step t.modelName s hs)]
  exact mapGet_mapSet_self s.input_map t.name key

theorem getInKey_updOut (cfg : EnsembleConfig) (t : ExposedTensor) (key : String)
    (n tn : String) :
    getInKey (updateStepMap cfg t key ExposedKind.output) n tn = getInKey cfg n tn := by
  unfold getInKey updateStepMap
  rw [findStep_map cfg.step n _ (updFun_model_name t key ExposedKind.output)]
  cases hf : findStep cfg.step n with
  | some s =>
      simp only [Option.map_some']
      unfold updFun
      by_cases hm : s.model_name = t.modelName
      · rw [if_pos hm, setStepMap_out_preserves_in]
      · rw [if_neg hm]
  | none => rfl

theorem getOutKey_updIn (cfg : EnsembleConfig) (t : ExposedTensor) (key : String)
    (n tn : String) :
    getOutKey (updateStepMap cfg t key ExposedKind.input) n tn = getOutKey cfg n tn := by
  unfold getOutKey updateStepMap
  rw [findStep_map cfg.step n _ (updFun_model_name t key ExposedKind.input)]
  cases hf : findStep cfg.step n with
  | some s =>
      simp only [Option.map_some']
      unfold updFun
      by_cases hm : s.model_name = t.modelName
      · rw [if_pos hm, setStepMap_in_preserves_out]
      · rw [if_neg hm]
  | none => rfl

theorem map_g_idem (l : List Step) (g : Step → Step) (hg : ∀ s, g (g s) = g s) :
    (l.map g).map g = l.map g := by
  induction l with
  | nil => rfl
  | cons a t ih => simp [hg a, ih]

theorem updateStepMap_idem (cfg : EnsembleConfig) (t : ExposedTensor) (key : String)
    (ty : ExposedKind) :
    updateStepMap (updateStepMap cfg t key ty) t key ty = updateStepMap cfg t key ty := by
  unfold updateStepMap
  congr 1
  exact map_g_idem cfg.step _ (updFun_idem t key ty)

theorem map_comp_swap (l : List Step) (g g' : Step → Step)
    (h : ∀ s, g (g' s) = g' (g s)) : (l.map g').map g = (l.map g).map g' := by
  induction l with
  | nil => rfl
  | cons a t ih => simp [h a, ih]

theorem updateStepMap_comm (cfg : EnsembleConfig) (t t' : ExposedTensor) (k k' : String) :
    updateStepMap (updateStepMap cfg t k ExposedKind.output) t' k' ExposedKind.input
      = updateStepMap (updateStepMap cfg t' k' ExposedKind.input) t k ExposedKind.output := by
  unfold updateStepMap
  congr 1
  exact map_comp_swap cfg.step _ _ (updFun_cross_comm t t' k k')

theorem inputNames_ensureStep (cfg : EnsembleConfig) (m : String) (v : Option Int) :
    inputNames (ensureStep cfg m v) = inputNames cfg := by
  unfold ensureStep
  split <;> rfl

/-! Claim theorems about the ensemble routing engine. -/

/-- C1: the claim states that `add_output` fails with `DuplicateKeyError`
exactly when the key already names an ensemble output, and that a key
naming only an ensemble input is accepted.  The source (model.py line 322)
instead checks the key against the ensemble INPUT names: a key naming an
existing input (and no output) is rejected, while a key naming an existing
output (and no input) is accepted and appends a duplicate output entry.
This theorem evaluates the embedded code at both failing inputs. -/
theorem c1_add_output_checks_inputs :
    add_output ⟨[("x", [-1, 4])], [], [⟨"m", none, [], []⟩]⟩
        ⟨"m", "t", [none, some 4]⟩ none (some "x")
      = EnsResult.error QuiverError.duplicateKey
          ⟨[("x", [-1, 4])], [], [⟨"m", none, [], []⟩]⟩ ∧
    add_output ⟨[], [("x", [-1, 4])], [⟨"m", none, [], []⟩]⟩
        ⟨"m", "t", [none, some 4]⟩ none (some "x")
      = EnsResult.ok ⟨[], [("x", [-1, 4]), ("x", [-1, 4])], [⟨"m", none, [], [("t", "x")]⟩]⟩
          "x" := by
  decide

/-- C4: `pipe` on tensors of different shapes fails with
`ShapeMismatchError` and performs no mutation at all: the configuration in
the error result is the untouched input configuration (the shape check is
the first statement of the function, before any step is ensured or any map
touched). -/
theorem c4_pipe_shape_mismatch (cfg : EnsembleConfig) (a b : ExposedTensor)
    (key : Option String) (h : a.shape ≠ b.shape) :
    pipe cfg a b key = EnsResult.error QuiverError.shapeMismatch cfg := by
  unfold pipe
  rw [if_neg h]

/-- Witness for C4 at a concrete mismatched pair. -/
theorem c4_witness :
    pipe ⟨[], [], []⟩ ⟨"A", "y", [none, some 10]⟩ ⟨"B", "z", [none, some 20]⟩ none
      = EnsResult.error QuiverError.shapeMismatch ⟨[], [], []⟩ :=
  c4_pipe_shape_mismatch ⟨[], [], []⟩ ⟨"A", "y", [none, some 10]⟩
    ⟨"B", "z", [none, some 20]⟩ none (by decide)

/-- C5 counterexample: the claim asserts `add_input` with a duplicate key
performs no mutation at all (in particular adds no step).  With a tensor
whose model is not yet a member, the source first appends a step for the
model (model.py lines 295-296) and only then raises `DuplicateKeyError`,
so the post-raise configuration differs from the original by the new
step. -/
theorem c5_counterexample :
    add_input ⟨[("x", [-1, 4])], [], []⟩ ⟨"M", "t", [none, some 4]⟩ none (some "x")
      = EnsResult.error QuiverError.duplicateKey
          ⟨[("x", [-1, 4])], [], [⟨"M", none, [], []⟩]⟩ ∧
    (⟨[("x", [-1, 4])], [], [⟨"M", none, [], []⟩]⟩ : EnsembleConfig)
      ≠ ⟨[("x", [-1, 4])], [], []⟩ := by
  decide

/-- C5 amended: if the resolved key (caller-supplied, or the tensor name by
default) already names an ensemble input, `add_input` fails with
`DuplicateKeyError`; the ensemble input list and every step map are left
unchanged, the only possible mutation being the addition of an (empty)
step for the tensor's model if it was not yet a member.  In particular,
when the tensor's model already has a step, the configuration is entirely
unchanged. -/
theorem c5_add_input_duplicate_key (cfg : EnsembleConfig) (t : ExposedTensor)
    (v : Option Int) (key : Option String)
    (h : pyOrStr key t.name ∈ inputNames cfg) :
    add_input cfg t v key
        = EnsResult.error QuiverError.duplicateKey (ensureStep cfg t.modelName v) ∧
      (t.modelName ∈ stepNames cfg →
        add_input cfg t v key = EnsResult.error QuiverError.duplicateKey cfg) := by
  have h' : pyOrStr key t.name ∈ inputNames (ensureStep cfg t.modelName v) := by
    rw [inputNames_ensureStep]
    exact h
  have hmain : add_input cfg t v key
      = EnsResult.error QuiverError.duplicateKey (ensureStep cfg t.modelName v) := by
    unfold add_input
    rw [if_pos h']
  refine ⟨hmain, fun hm => ?_⟩
  rw [ensureStep_of_mem cfg t.modelName v hm] at hmain
  exact hmain

/-- Witness for C5 amended with the tensor's model already a member. -/
theorem c5_witness :
    add_input ⟨[("x", [-1, 4])], [], [⟨"M", none, [], []⟩]⟩
        ⟨"M", "t", [none, some 4]⟩ none (some "x")
      = EnsResult.error QuiverError.duplicateKey
          ⟨[("x", [-1, 4])], [], [⟨"M", none, [], []⟩]⟩ :=
  (c5_add_input_duplicate_key ⟨[("x", [-1, 4])], [], [⟨"M", none, [], []⟩]⟩
    ⟨"M", "t", [none, some 4]⟩ none (some "x") (by decide)).2 (by decide)

/-- C3 counterexample: the claim asserts that after `pipe(a, b, K1)`, a
call `pipe(a, c, K2)` with a different key fails with `KeyConflictError`
AND leaves the configuration identical to the state after the first call.
When `c`'s model is not yet a member, the source appends a step for it
(model.py lines 401-404) before the key check raises, so the states
differ. -/
theorem c3_counterexample :
    pipe ⟨[], [], []⟩ ⟨"MA", "a", [none, some 10]⟩ ⟨"MB", "b", [none, some 10]⟩ (some "K1")
      = EnsResult.ok
          ⟨[], [], [⟨"MB", none, [("b", "K1")], []⟩, ⟨"MA", none, [], [("a", "K1")]⟩]⟩
          "K1" ∧
    pipe ⟨[], [], [⟨"MB", none, [("b", "K1")], []⟩, ⟨"MA", none, [], [("a", "K1")]⟩]⟩
        ⟨"MA", "a", [none, some 10]⟩ ⟨"MC", "c", [none, some 10]⟩ (some "K2")
      = EnsResult.error QuiverError.keyConflict
          ⟨[], [],
            [⟨"MB", none, [("b", "K1")], []⟩, ⟨"MA", none, [], [("a", "K1")]⟩,
              ⟨"MC", none, [], []⟩]⟩ ∧
    (⟨[], [],
        [⟨"MB", none, [("b", "K1")], []⟩, ⟨"MA", none, [], [("a", "K1")]⟩,
          ⟨"MC", none, [], []⟩]⟩ : EnsembleConfig)
      ≠ ⟨[], [], [⟨"MB", none, [("b", "K1")], []⟩, ⟨"MA", none, [], [("a", "K1")]⟩]⟩ := by
  decide

/-- C3 amended: when the outbound tensor already carries a nonempty routing
key `k1` (as it does after a successful `pipe(a, b, key := k1)`), a call
`pipe(a, c, key := k2)` with `k2 ≠ k1` fails with `KeyConflictError`; the
ensemble boundary and every existing step map are unchanged, the only
possible mutation being the addition of an (empty) step for `c`'s model if
it was not yet a member.  In particular, when `c`'s model already has a
step, the configuration after the failed call is identical to the state
before it. -/
theorem c3_pipe_existing_key_conflict (cfg : EnsembleConfig) (a c : ExposedTensor)
    (k1 k2 : String) (hne : k1 ≠ "") (hk : k1 ≠ k2) (hsh : a.shape = c.shape)
    (hmem : a.modelName ∈ stepNames cfg)
    (hout : getOutKey cfg a.modelName a.name = k1) :
    pipe cfg a c (some k2)
        = EnsResult.error QuiverError.keyConflict (ensureStep cfg c.modelName none) ∧
      (c.modelName ∈ stepNames cfg →
        pipe cfg a c (some k2) = EnsResult.error QuiverError.keyConflict cfg) := by
  have hmem' : a.modelName ∈ stepNames (ensureStep cfg c.modelName none) :=
    stepNames_ensureStep_mono cfg c.modelName a.modelName none hmem
  have hout' : getOutKey (ensureStep cfg c.modelName none) a.modelName a.name = k1 := by
    rw [getOutKey_ensureStep]
    exact hout
  have hmain : pipe cfg a c (some k2)
      = EnsResult.error QuiverError.keyConflict (ensureStep cfg c.modelName none) := by
    unfold pipe
    rw [if_pos hsh, ensureStep_of_mem _ _ _ hmem']
    unfold pipeOut
    rw [hout', if_neg hne]
    show (if k1 = k2 then pipeInbound (ensureStep cfg c.modelName none) c k2
      else EnsResult.error QuiverError.keyConflict (ensureStep cfg c.modelName none)) = _
    rw [if_neg hk]
  refine ⟨hmain, fun hc => ?_⟩
  rw [ensureStep_of_mem cfg c.modelName none hc] at hmain
  exact hmain

/-- Witness for C3 amended in the all-members case. -/
theorem c3_witness :
    pipe ⟨[], [], [⟨"MB", none, [("b", "K1")], []⟩, ⟨"MA", none, [], [("a", "K1")]⟩]⟩
        ⟨"MA", "a", [none, some 10]⟩ ⟨"MB", "d", [none, some 10]⟩ (some "K2")
      = EnsResult.error QuiverError.keyConflict
          ⟨[], [], [⟨"MB", none, [("b", "K1")], []⟩, ⟨"MA", none, [], [("a", "K1")]⟩]⟩ :=
  (c3_pipe_existing_key_conflict
    ⟨[], [], [⟨"MB", none, [("b", "K1")], []⟩, ⟨"MA", none, [], [("a", "K1")]⟩]⟩
    ⟨"MA", "a", [none, some 10]⟩ ⟨"MB", "d", [none, some 10]⟩ "K1" "K2"
    (by decide) (by decide) (by decide) (by decide) (by decide)).2 (by decide)

/-- C2: piping an outbound tensor `y` of model `A` into an inbound tensor
`z` of model `B` of the same shape, with no caller key and no existing key
on either side, succeeds with routing key `y` (the outbound tensor's
name); afterwards the ensemble has steps for both `A` and `B`, `A`'s step
output map sends `y` to `y`, and `B`'s step input map sends `z` to `y`. -/
theorem c2_pipe_default_key_routing (cfg : EnsembleConfig) (A B y z : String) (s : Shape)
    (hA : getOutKey cfg A y = "") (hB : getInKey cfg B z = "") :
    ∃ cfg', pipe cfg ⟨A, y, s⟩ ⟨B, z, s⟩ none = EnsResult.ok cfg' y ∧
      A ∈ stepNames cfg' ∧ B ∈ stepNames cfg' ∧
      getOutKey cfg' A y = y ∧ getInKey cfg' B z = y := by
  have hAmem : A ∈ stepNames (ensureStep (ensureStep cfg B none) A none) :=
    stepNames_ensureStep_self (ensureStep cfg B none) A none
  have hBmem : B ∈ stepNames (ensureStep (ensureStep cfg B none) A none) :=
    stepNames_ensureStep_mono (ensureStep cfg B none) A B none
      (stepNames_ensureStep_self cfg B none)
  have hA' : getOutKey (ensureStep (ensureStep cfg B none) A none) A y = "" := by
    rw [getOutKey_ensureStep, getOutKey_ensureStep]
    exact hA
  have hB' : getInKey (ensureStep (ensureStep cfg B none) A none) B z = "" := by
    rw [getInKey_ensureStep, getInKey_ensureStep]
    exact hB
  refine ⟨updateStepMap
      (updateStepMap (ensureStep (ensureStep cfg B none) A none)
        ⟨A, y, s⟩ y ExposedKind.output)
      ⟨B, z, s⟩ y ExposedKind.input, ?_, ?_, ?_, ?_, ?_⟩
  · unfold pipe
    dsimp only
    rw [if_pos rfl]
    unfold pipeOut
    dsimp only
    rw [if_pos hA']
    dsimp only [pyOrStr]
    unfold pipeInbound
    dsimp only
    rw [getInKey_updOut, if_pos hB']
  · rw [stepNames_updateStepMap, stepNames_updateStepMap]
    exact hAmem
  · rw [stepNames_updateStepMap, stepNames_updateStepMap]
    exact hBmem
  · rw [getOutKey_updIn]
    exact getOutKey_updOut_self (ensureStep (ensureStep cfg B none) A none) ⟨A, y, s⟩ y hAmem
  · refine getInKey_updIn_self _ ⟨B, z, s⟩ y ?_
    rw [stepNames_updateStepMap]
    exact hBmem

/-- Witness for C2 on a fresh ensemble. -/
theorem c2_witness :
    ∃ cfg', pipe ⟨[], [], []⟩ ⟨"A", "y", [none, some 10]⟩ ⟨"B", "z", [none, some 10]⟩ none
        = EnsResult.ok cfg' "y" ∧
      "A" ∈ stepNames cfg' ∧ "B" ∈ stepNames cfg' ∧
      getOutKey cfg' "A" "y" = "y" ∧ getInKey cfg' "B" "z" = "y" :=
  c2_pipe_default_key_routing ⟨[], [], []⟩ "A" "B" "y" "z" [none, some 10]
    (by decide) (by decide)

/-- Replaying `pipe` with no caller key on a configuration where the
outbound and inbound sides already carry the same nonempty key succeeds,
changes nothing, and resolves that key again. -/
theorem pipe_replay (D : EnsembleConfig) (a b : ExposedTensor) (kk : String)
    (hsh : a.shape = b.shape)
    (ha : a.modelName ∈ stepNames D) (hb : b.modelName ∈ stepNames D)
    (hkk : kk ≠ "")
    (hout : getOutKey D a.modelName a.name = kk)
    (hin : getInKey D b.modelName b.name = kk) :
    pipe D a b none = EnsResult.ok D kk := by
  unfold pipe
  rw [if_pos hsh, ensureStep_of_mem D b.modelName none hb,
    ensureStep_of_mem D a.modelName none ha]
  unfold pipeOut
  rw [if_neg (show ¬(getOutKey D a.modelName a.name = "") from by rw [hout]; exact hkk)]
  show pipeInbound D b (getOutKey D a.modelName a.name) = EnsResult.ok D kk
  rw [hout]
  unfold pipeInbound
  rw [hin, if_neg hkk, if_neg (fun hh : ¬(kk = kk) => hh rfl)]

/-- C9: `pipe(a, b)` with no caller key is idempotent: if the call succeeds
producing configuration `cfg1` and routing key `k`, the same call run again
on `cfg1` succeeds, produces the same key `k`, and leaves the configuration
at `cfg1`. -/
theorem c9_pipe_idempotent (cfg cfg1 : EnsembleConfig) (a b : ExposedTensor) (k : String)
    (h : pipe cfg a b none = EnsResult.ok cfg1 k) :
    pipe cfg1 a b none = EnsResult.ok cfg1 k := by
  unfold pipe at h
  by_cases hsh : a.shape = b.shape
  case neg =>
    rw [if_neg hsh] at h
    exact absurd h (by simp)
  case pos =>
  rw [if_pos hsh] at h
  set cfgE := ensureStep (ensureStep cfg b.modelName none) a.modelName none with hEdef
  have hAmem : a.modelName ∈ stepNames cfgE := stepNames_ensureStep_self _ _ _
  have hBmem : b.modelName ∈ stepNames cfgE :=
    stepNames_ensureStep_mono _ _ _ _ (stepNames_ensureStep_self _ _ _)
  unfold pipeOut at h
  by_cases h1 : getOutKey cfgE a.modelName a.name = ""
  · rw [if_pos h1] at h
    have hpy : pyOrStr none a.name = a.name := rfl
    rw [hpy] at h
    unfold pipeInbound at h
    rw [getInKey_updOut] at h
    by_cases hin : getInKey cfgE b.modelName b.name = ""
    · rw [if_pos hin] at h
      injection h with hcfg hk
      subst hk
      subst hcfg
      set X := updateStepMap (updateStepMap cfgE a a.name ExposedKind.output)
        b a.name ExposedKind.input with hXdef
      have hamem1 : a.modelName ∈ stepNames X := by
        rw [hXdef, stepNames_updateStepMap, stepNames_updateStepMap]
        exact hAmem
      have hbmem1 : b.modelName ∈ stepNames X := by
        rw [hXdef, stepNames_updateStepMap, stepNames_updateStepMap]
        exact hBmem
      have houtX : getOutKey X a.modelName a.name = a.name := by
        rw [hXdef, getOutKey_updIn]
        exact getOutKey_updOut_self cfgE a a.name hAmem
      have hinX : getInKey X b.modelName b.name = a.name := by
        rw [hXdef]
        refine getInKey_updIn_self _ b a.name ?_
        rw [stepNames_updateStepMap]
        exact hBmem
      by_cases hname : a.name = ""
      · have hXfix : updateStepMap X a a.name ExposedKind.output = X := by
          rw [hXdef, ← updateStepMap_comm, updateStepMap_idem]
        have hXin : updateStepMap X b a.name ExposedKind.input = X := by
          rw [hXdef, updateStepMap_idem]
        unfold pipe
        rw [if_pos hsh, ensureStep_of_mem X b.modelName none hbmem1,
          ensureStep_of_mem X a.modelName none hamem1]
        unfold pipeOut
        rw [if_pos (show getOutKey X a.modelName a.name = "" from by
          rw [houtX]; exact hname)]
        rw [hpy, hXfix]
        unfold pipeInbound
        rw [if_pos (show getInKey X b.modelName b.name = "" from by
          rw [hinX]; exact hname)]
        rw [hXin]
      · exact pipe_replay X a b a.name hsh hamem1 hbmem1 hname houtX hinX
    · rw [if_neg hin] at h
      by_cases hne : getInKey cfgE b.modelName b.name ≠ a.name
      · rw [if_pos hne] at h
        exact absurd h (by simp)
      · rw [if_neg hne] at h
        have heq := not_not.mp hne
        injection h with hcfg hk
        subst hk
        subst hcfg
        set Y := updateStepMap cfgE a a.name ExposedKind.output with hYdef
        have hname : a.name ≠ "" := fun hh => hin (heq.trans hh)
        have hamem1 : a.modelName ∈ stepNames Y := by
          rw [hYdef, stepNames_updateStepMap]
          exact hAmem
        have hbmem1 : b.modelName ∈ stepNames Y := by
          rw [hYdef, stepNames_updateStepMap]
          exact hBmem
        have houtY : getOutKey Y a.modelName a.name = a.name := by
          rw [hYdef]
          exact getOutKey_updOut_self cfgE a a.name hAmem
        have hinY : getInKey Y b.modelName b.name = a.name := by
          rw [hYdef, getInKey_updOut]
          exact heq
        exact pipe_replay Y a b a.name hsh hamem1 hbmem1 hname houtY hinY
  · rw [if_neg h1] at h
    change pipeInbound cfgE b (getOutKey cfgE a.modelName a.name)
      = EnsResult.ok cfg1 k at h
    unfold pipeInbound at h
    by_cases hin : getInKey cfgE b.modelName b.name = ""
    · rw [if_pos hin] at h
      injection h with hcfg hk
      subst hk
      subst hcfg
      set Z := updateStepMap cfgE b (getOutKey cfgE a.modelName a.name)
        ExposedKind.input with hZdef
      have hamem1 : a.modelName ∈ stepNames Z := by
        rw [hZdef, stepNames_updateStepMap]
        exact hAmem
      have hbmem1 : b.modelName ∈ stepNames Z := by
        rw [hZdef, stepNames_updateStepMap]
        exact hBmem
      have houtZ : getOutKey Z a.modelName a.name = getOutKey cfgE a.modelName a.name := by
        rw [hZdef, getOutKey_updIn]
      have hinZ : getInKey Z b.modelName b.name = getOutKey cfgE a.modelName a.name := by
        rw [hZdef]
        exact getInKey_updIn_self cfgE b _ hBmem
      exact pipe_replay Z a b (getOutKey cfgE a.modelName a.name) hsh hamem1 hbmem1
        h1 houtZ hinZ
    · rw [if_neg hin] at h
      by_cases hne : getInKey cfgE b.modelName b.name ≠ getOutKey cfgE a.modelName a.name
      · rw [if_pos hne] at h
        exact absurd h (by simp)
      · rw [if_neg hne] at h
        have heq := not_not.mp hne
        injection h with hcfg hk
        subst hk
        subst hcfg
        exact pipe_replay cfgE a b (getOutKey cfgE a.modelName a.name) hsh hAmem hBmem
          h1 rfl heq

/-- Witness for C9: replaying a concrete successful default-key pipe. -/
theorem c9_witness :
    pipe ⟨[], [], [⟨"MB", none, [("b", "a")], []⟩, ⟨"MA", none, [], [("a", "a")]⟩]⟩
        ⟨"MA", "a", [none, some 10]⟩ ⟨"MB", "b", [none, some 10]⟩ none
      = EnsResult.ok
          ⟨[], [], [⟨"MB", none, [("b", "a")], []⟩, ⟨"MA", none, [], [("a", "a")]⟩]⟩ "a" :=
  c9_pipe_idempotent ⟨[], [], []⟩
    ⟨[], [], [⟨"MB", none, [("b", "a")], []⟩, ⟨"MA", none, [], [("a", "a")]⟩]⟩
    ⟨"MA", "a", [none, some 10]⟩ ⟨"MB", "b", [none, some 10]⟩ "a" (by decide)

/-! Exposed-tensor shape validation, platform.py `_check_exposed_tensors`. -/

/-- The `provided` argument of `_check_exposed_tensors`: either a plain
sequence of shapes or a mapping from tensor names to shapes. -/
inductive Provided where
  | shapes (l : List Shape)
  | named (d : List (String × Shape))
deriving DecidableEq

/-- Python `i or -1` on an optional axis size (platform.py line 159): both
`None` and `0` are falsy and map to -1. -/
def pyOrDim (d : Option Int) : Int :=
  match d with
  | none => -1
  | some v => if v = 0 then -1 else v

/-- platform.py lines 103-110: generic indexed names for a plain sequence
of shapes. -/
def namedOf (ty : String) (p : Provided) : List (String × Shape) :=
  match p with
  | .shapes l => l.enum.map (fun q => (ty ++ "_" ++ toString q.fst, q.snd))
  | .named d => d

/-- platform.py lines 133-139: positional pairing of a plain sequence of
shapes with the declared tensors, in config order (`zip` truncates exactly
like Python's). -/
def pairWithExposed (exposed : List (String × Dims)) (p : Provided) :
    List (String × Shape) :=
  match p with
  | .shapes l => (exposed.zip l).map (fun q => (q.fst.fst, q.snd))
  | .named d => d

/-- platform.py line 117: a variable-length axis outside the leading
(batch) axis. -/
def hasBadAxis (s : Shape) : Bool := (s.drop 1).any Option.isNone

/-- Result of `_check_exposed_tensors`, carrying the declared-tensor list of
the checked kind; errors carry whatever was registered before the raise. -/
inductive CheckResult where
  | ok (exposed : List (String × Dims))
  | error (e : QuiverError) (exposed : List (String × Dims))
deriving DecidableEq

/-- platform.py lines 112-129: validate and register each provided tensor in
turn; an `InvalidShapeError` raise leaves the tensors registered so far in
the config. -/
def addProvided (exposed : List (String × Dims)) : List (String × Shape) → CheckResult
  | [] => CheckResult.ok exposed
  | (n, s) :: rest =>
      if hasBadAxis s then CheckResult.error QuiverError.invalidShape exposed
      else addProvided (exposed ++ [(n, specDims s)]) rest

/-- Python `set(a) == set(b)` on two name lists: mutual containment. -/
def pySetEqStr (a b : List String) : Bool :=
  a.all (fun x => decide (x ∈ b)) && b.all (fun x => decide (x ∈ a))

/-- The lookup `provided[ex.name]` of platform.py line 159; the KeyError
case is unreachable after the name-set check and is modelled by the empty
shape. -/
def dictGetShape (d : List (String × Shape)) (k : String) : Shape :=
  match d.find? (fun p => p.fst = k) with
  | some p => p.snd
  | none => []

/-- platform.py lines 153-168: compare each declared tensor's dims with the
provided shape mapped through `i or -1`, raising at the first mismatch. -/
def checkShapes (d : List (String × Shape)) : List (String × Dims) → Except QuiverError Unit
  | [] => Except.ok ()
  | (n, dims) :: rest =>
      if dims = (dictGetShape d n).map pyOrDim then checkShapes d rest
      else Except.error QuiverError.shapeMismatch

/-- platform.py lines 61-168 `Platform._check_exposed_tensors`. -/
def check_exposed_tensors (ty : String) (exposed : List (String × Dims)) :
    Option Provided → CheckResult
  | none =>
      if exposed = [] then CheckResult.error QuiverError.configurationError exposed
      else CheckResult.ok exposed
  | some p =>
      if exposed = [] then addProvided exposed (namedOf ty p)
      else if (pairWithExposed exposed p).length = exposed.length
          ∧ pySetEqStr ((pairWithExposed exposed p).map Prod.fst)
              (exposed.map Prod.fst) = true then
        match checkShapes (pairWithExposed exposed p) exposed with
        | Except.ok _ => CheckResult.ok exposed
        | Except.error e => CheckResult.error e exposed
      else CheckResult.error QuiverError.shapeMismatch exposed

/-- The data-model invariant on an axis of a provided shape: the wildcard
`none`, or a positive size. -/
def validDim (d : Option Int) : Bool :=
  match d with
  | none => true
  | some n => decide (0 < n)

/-- The data-model invariant on a provided shape: every axis is `none` or a
positive size (shapes are sequences of optional positive integers). -/
def validShape (s : Shape) : Prop := ∀ d ∈ s, validDim d = true

instance instDecidableValidShape (s : Shape) : Decidable (validShape s) :=
  inferInstanceAs (Decidable (∀ d ∈ s, validDim d = true))

theorem validShape_norm (s : Shape) (h : validShape s) :
    s.map pyOrDim = s.map (fun d => d.getD (-1)) := by
  induction s with
  | nil => rfl
  | cons d rest ih =>
      have hd := h d (List.mem_cons_self _ _)
      have hrest : validShape rest := fun x hx => h x (List.mem_cons_of_mem _ hx)
      simp only [List.map_cons, ih hrest]
      cases d with
      | none => rfl
      | some n =>
          have hn : 0 < n := by
            simpa [validDim] using hd
          have hhead : pyOrDim (some n) = (some n).getD (-1) := by
            show (if n = 0 then (-1 : Int) else n) = (some n).getD (-1)
            rw [if_neg (show ¬ n = 0 by omega)]
            rfl
          rw [hhead]

theorem validShape_dictGetShape (d : List (String × Shape)) (n : String)
    (h : ∀ q ∈ d, validShape q.snd) : validShape (dictGetShape d n) := by
  unfold dictGetShape
  cases hf : d.find? (fun p => p.fst = n) with
  | some p => exact h p (List.mem_of_find?_eq_some hf)
  | none =>
      intro x hx
      simp at hx

theorem checkShapes_ok_iff (d : List (String × Shape)) (l : List (String × Dims)) :
    checkShapes d l = Except.ok ()
      ↔ ∀ q ∈ l, q.snd = (dictGetShape d q.fst).map pyOrDim := by
  induction l with
  | nil => simp [checkShapes]
  | cons q rest ih =>
      obtain ⟨n, dims⟩ := q
      simp only [checkShapes]
      by_cases hq : dims = (dictGetShape d n).map pyOrDim
      · rw [if_pos hq]
        constructor
        · intro hrest q2 hmem
          rcases List.mem_cons.mp hmem with hq2 | hmem'
          · rw [hq2]
            exact hq
          · exact (ih.mp hrest) q2 hmem'
        · intro hall
          exact ih.mpr (fun q2 hm => hall q2 (List.mem_cons_of_mem _ hm))
      · rw [if_neg hq]
        constructor
        · intro hcontra
          simp at hcontra
        · intro hall
          exact absurd (hall (n, dims) (List.mem_cons_self _ _)) hq

theorem checkShapes_total (d : List (String × Shape)) (l : List (String × Dims)) :
    checkShapes d l = Except.ok ()
      ∨ checkShapes d l = Except.error QuiverError.shapeMismatch := by
  induction l with
  | nil => exact Or.inl rfl
  | cons q rest ih =>
      obtain ⟨n, dims⟩ := q
      simp only [checkShapes]
      by_cases hq : dims = (dictGetShape d n).map pyOrDim
      · rw [if_pos hq]
        exact ih
      · rw [if_neg hq]
        exact Or.inr rfl

theorem pySetEqStr_iff (a b : List String) :
    pySetEqStr a b = true ↔ (∀ x, x ∈ a ↔ x ∈ b) := by
  unfold pySetEqStr
  simp only [Bool.and_eq_true, List.all_eq_true, decide_eq_true_eq]
  constructor
  · rintro ⟨h1, h2⟩ x
    exact ⟨fun hx => h1 x hx, fun hx => h2 x hx⟩
  · intro h
    exact ⟨fun x hx => (h x).mp hx, fun x hx => (h x).mpr hx⟩

/-- Definitional unfolding of the `provided is not None` case. -/
theorem check_some_eq (ty : String) (exposed : List (String × Dims)) (p : Provided) :
    check_exposed_tensors ty exposed (some p)
      = if exposed = [] then addProvided exposed (namedOf ty p)
        else if (pairWithExposed exposed p).length = exposed.length
            ∧ pySetEqStr ((pairWithExposed exposed p).map Prod.fst)
                (exposed.map Prod.fst) = true then
          match checkShapes (pairWithExposed exposed p) exposed with
          | Except.ok _ => CheckResult.ok exposed
          | Except.error e => CheckResult.error e exposed
        else CheckResult.error QuiverError.shapeMismatch exposed := rfl

theorem check_branch3_ok (ty : String) (exposed : List (String × Dims)) (p : Provided)
    (hne : exposed ≠ [])
    (hcode : (pairWithExposed exposed p).length = exposed.length
      ∧ pySetEqStr ((pairWithExposed exposed p).map Prod.fst)
          (exposed.map Prod.fst) = true)
    (hsh : checkShapes (pairWithExposed exposed p) exposed = Except.ok ()) :
    check_exposed_tensors ty exposed (some p) = CheckResult.ok exposed := by
  rw [check_some_eq, if_neg hne, if_pos hcode, hsh]

theorem check_branch3_errShapes (ty : String) (exposed : List (String × Dims)) (p : Provided)
    (hne : exposed ≠ [])
    (hcode : (pairWithExposed exposed p).length = exposed.length
      ∧ pySetEqStr ((pairWithExposed exposed p).map Prod.fst)
          (exposed.map Prod.fst) = true)
    (hsh : checkShapes (pairWithExposed exposed p) exposed
      = Except.error QuiverError.shapeMismatch) :
    check_exposed_tensors ty exposed (some p)
      = CheckResult.error QuiverError.shapeMismatch exposed := by
  rw [check_some_eq, if_neg hne, if_pos hcode, hsh]

theorem check_branch3_errNames (ty : String) (exposed : List (String × Dims)) (p : Provided)
    (hne : exposed ≠ [])
    (hcode : ¬ ((pairWithExposed exposed p).length = exposed.length
      ∧ pySetEqStr ((pairWithExposed exposed p).map Prod.fst)
          (exposed.map Prod.fst) = true)) :
    check_exposed_tensors ty exposed (some p)
      = CheckResult.error QuiverError.shapeMismatch exposed := by
  rw [check_some_eq, if_neg hne, if_neg hcode]

/-- C8: with at least one declared tensor of the given kind and a provided
shape specification present, `_check_exposed_tensors` succeeds (returning
the configuration unchanged) if and only if the provided names, after
positional pairing for list input, are set-equal to the declared names
with matching count, and each declared tensor's recorded dims equal the
provided shape with every wildcard axis normalized to -1; any name-set or
shape discrepancy yields `ShapeMismatchError` with the configuration
unchanged.  (Provided shapes satisfy the data-model invariant of optional
positive axis sizes.) -/
theorem c8_check_exposed_iff (ty : String) (exposed : List (String × Dims)) (p : Provided)
    (hne : exposed ≠ [])
    (hval : ∀ q ∈ pairWithExposed exposed p, validShape q.snd) :
    (check_exposed_tensors ty exposed (some p) = CheckResult.ok exposed ↔
      ((pairWithExposed exposed p).length = exposed.length ∧
        (∀ x, x ∈ (pairWithExposed exposed p).map Prod.fst
          ↔ x ∈ exposed.map Prod.fst) ∧
        ∀ q ∈ exposed,
          q.snd = (dictGetShape (pairWithExposed exposed p) q.fst).map
            (fun x => x.getD (-1)))) ∧
    (¬ ((pairWithExposed exposed p).length = exposed.length ∧
        (∀ x, x ∈ (pairWithExposed exposed p).map Prod.fst
          ↔ x ∈ exposed.map Prod.fst) ∧
        ∀ q ∈ exposed,
          q.snd = (dictGetShape (pairWithExposed exposed p) q.fst).map
            (fun x => x.getD (-1))) →
      check_exposed_tensors ty exposed (some p)
        = CheckResult.error QuiverError.shapeMismatch exposed) := by
  have hbridge : ∀ q : String × Dims, q ∈ exposed →
      ((q.snd = (dictGetShape (pairWithExposed exposed p) q.fst).map pyOrDim) ↔
        (q.snd = (dictGetShape (pairWithExposed exposed p) q.fst).map
          (fun x => x.getD (-1)))) := by
    intro q _
    rw [validShape_norm _ (validShape_dictGetShape (pairWithExposed exposed p) q.fst hval)]
  by_cases hcode : (pairWithExposed exposed p).length = exposed.length
      ∧ pySetEqStr ((pairWithExposed exposed p).map Prod.fst)
          (exposed.map Prod.fst) = true
  · by_cases hsh : ∀ q ∈ exposed,
        q.snd = (dictGetShape (pairWithExposed exposed p) q.fst).map pyOrDim
    · have hres := check_branch3_ok ty exposed p hne hcode
        ((checkShapes_ok_iff _ _).mpr hsh)
      rw [hres]
      constructor
      · constructor
        · intro _
          exact ⟨hcode.1, (pySetEqStr_iff _ _).mp hcode.2,
            fun q hq => (hbridge q hq).mp (hsh q hq)⟩
        · intro _
          rfl
      · intro hnc
        exact absurd ⟨hcode.1, (pySetEqStr_iff _ _).mp hcode.2,
          fun q hq => (hbridge q hq).mp (hsh q hq)⟩ hnc
    · have hcs : checkShapes (pairWithExposed exposed p) exposed
          = Except.error QuiverError.shapeMismatch := by
        rcases checkShapes_total (pairWithExposed exposed p) exposed with hok | herr
        · exact absurd ((checkShapes_ok_iff _ _).mp hok) hsh
        · exact herr
      have hres := check_branch3_errShapes ty exposed p hne hcode hcs
      rw [hres]
      constructor
      · constructor
        · intro hcontra
          simp at hcontra
        · intro hC
          exact absurd (fun q hq => (hbridge q hq).mpr (hC.2.2 q hq)) hsh
      · intro _
        rfl
  · have hres := check_branch3_errNames ty exposed p hne hcode
    rw [hres]
    constructor
    · constructor
      · intro hcontra
        simp at hcontra
      · intro hC
        exact absurd ⟨hC.1, (pySetEqStr_iff _ _).mpr hC.2.1⟩ hcode
    · intro _
      rfl

/-- Witness for C8 on a matching declared/provided pair. -/
theorem c8_witness :
    check_exposed_tensors "input" [("x", [-1, 4])]
        (some (Provided.named [("x", [none, some 4])]))
      = CheckResult.ok [("x", [-1, 4])] :=
  (c8_check_exposed_iff "input" [("x", [-1, 4])]
    (Provided.named [("x", [none, some 4])]) (by decide) (by decide)).1.mpr
    ⟨by decide, fun x => Iff.rfl, by decide⟩

/-! Model.export_version: version selection and failure cleanup. -/

/-- model.py lines 219-221: the default version is one greater than the
maximum existing version; Python's `max` on an empty sequence raises
`ValueError`, modelled by `Except.error ()`. -/
def default_version (versions : List Int) : Option Int → Except Unit Int
  | some v => Except.ok v
  | none =>
      match versions.max? with
      | some m => Except.ok (m + 1)
      | none => Except.error ()

/-- Outcome of the `try` block of `export_version` (model.py lines 231-248:
input-shape validation, output-shape inference and validation, artifact
export, config write) as a transformer of the directory store, carrying the
post-state also on failure. -/
inductive BodyResult (e : Type) where
  | ok (fs : List String)
  | error (err : e) (fs : List String)
deriving DecidableEq

/-- Errors escaping `export_version`: the `ValueError` from `max` on an
empty version list, or whatever the try-block body raised (re-raised
unchanged by the bare `raise`). -/
inductive ExportErr (e : Type) where
  | emptyMax
  | body (err : e)
deriving DecidableEq

inductive ExportOutcome (e : Type) where
  | ok (version : Int) (fs : List String)
  | error (err : ExportErr e) (fs : List String)
deriving DecidableEq

/-- local.py lines 16-24 `soft_makedirs` on a directory store: create the
directory if missing and return whether this call created it (creation of
intermediate directories is immaterial to the claims and elided). -/
def soft_makedirs (fs : List String) (path : String) : Bool × List String :=
  if path ∈ fs then (false, fs) else (true, fs ++ [path])

/-- Byte-wise test that `a` is a proper path-component boundary followed by
anything, used for recursive removal. -/
def charsPre : List Char → List Char → Bool
  | [], _ => true
  | _ :: _, [] => false
  | x :: xs, y :: ys => x == y && charsPre xs ys

/-- local.py lines 50-63 `remove` on a directory: `shutil.rmtree`, removing
the directory and everything below it. -/
def remove_rec (fs : List String) (path : String) : List String :=
  fs.filter (fun p => !(p == path || charsPre (path.data ++ ['/']) p.data))

/-- model.py lines 177-255 `Model.export_version`, with the exporter lookup
(line 217, an external capability) elided and the try-block body
abstracted: resolve the target version, create its directory recording
whether this call created it, run the body, and on a body failure remove
the directory again iff this call created it, re-raising the body's error
unchanged. -/
def export_version {e : Type} (fs : List String) (name : String) (versions : List Int)
    (version : Option Int) (body : List String → BodyResult e) : ExportOutcome e :=
  match default_version versions version with
  | Except.error _ => ExportOutcome.error ExportErr.emptyMax fs
  | Except.ok v =>
      match body (soft_makedirs fs (name ++ "/" ++ toString v)).snd with
      | BodyResult.ok fs2 => ExportOutcome.ok v fs2
      | BodyResult.error err fs2 =>
          ExportOutcome.error (ExportErr.body err)
            (if (soft_makedirs fs (name ++ "/" ++ toString v)).fst then
              remove_rec fs2 (name ++ "/" ++ toString v)
            else fs2)

/-- C6: when the try-block body of `export_version` fails, the original
error is re-raised unchanged; the version directory is removed recursively
iff it was newly created by this call (if it pre-existed, the cleanup
handler leaves the store exactly as the body left it). -/
theorem c6_export_cleanup {e : Type} (fs : List String) (name : String)
    (vs : List Int) (ver : Option Int) (body : List String → BodyResult e)
    (v : Int) (err : e) (fs2 : List String)
    (hv : default_version vs ver = Except.ok v)
    (hb : body (soft_makedirs fs (name ++ "/" ++ toString v)).snd
      = BodyResult.error err fs2) :
    ((name ++ "/" ++ toString v) ∈ fs →
      export_version fs name vs ver body
        = ExportOutcome.error (ExportErr.body err) fs2) ∧
    ((name ++ "/" ++ toString v) ∉ fs →
      export_version fs name vs ver body
        = ExportOutcome.error (ExportErr.body err)
            (remove_rec fs2 (name ++ "/" ++ toString v))) := by
  constructor
  · intro hmem
    have hfst : (soft_makedirs fs (name ++ "/" ++ toString v)).fst = false := by
      unfold soft_makedirs
      rw [if_pos hmem]
    simp only [export_version, hv, hb, hfst, Bool.false_eq_true, if_false]
  · intro hmem
    have hfst : (soft_makedirs fs (name ++ "/" ++ toString v)).fst = true := by
      unfold soft_makedirs
      rw [if_neg hmem]
    simp only [export_version, hv, hb, hfst, if_true]

/-- Witness for C6 with a pre-existing version directory. -/
theorem c6_witness :
    export_version ["m/0"] "m" [0] (some 0) (fun l => BodyResult.error () l)
      = ExportOutcome.error (ExportErr.body ()) ["m/0"] :=
  (c6_export_cleanup ["m/0"] "m" [0] (some 0) (fun l => BodyResult.error () l)
    0 () ["m/0"] rfl (by decide)).1 (by decide)

/-- C7: the claim states that with `version=None` the target version is one
greater than the current maximum existing version, that a caller-supplied
version is used as given, and that with no existing versions the base
version 0 is assigned.  The first two parts hold, but on an empty version
list the source evaluates `max(self.versions) + 1`, and Python's `max` of
an empty sequence raises `ValueError` instead of assigning any base
version; `export_version` then propagates that error before touching
storage. -/
theorem c7_default_version :
    (∀ (vs : List Int) (v : Int), default_version vs (some v) = Except.ok v) ∧
    (∀ (vs : List Int) (m : Int), vs.max? = some m →
      default_version vs none = Except.ok (m + 1)) ∧
    default_version [] none = Except.error () ∧
    (∀ (fs : List String) (name : String) (body : List String → BodyResult Unit),
      export_version fs name [] none body
        = ExportOutcome.error ExportErr.emptyMax fs) := by
  refine ⟨fun vs v => rfl, fun vs m hm => ?_, rfl, fun fs name body => rfl⟩
  simp only [default_version, hm]

/-- Witness for C7 at concrete inputs. -/
theorem c7_witness :
    default_version [3, 7] none = Except.ok 8 ∧
    export_version [] "m" [] none (fun l => (BodyResult.ok l : BodyResult Unit))
      = ExportOutcome.error ExportErr.emptyMax [] :=
  ⟨c7_default_version.2.1 [3, 7] 7 (by decide),
    c7_default_version.2.2.2 [] "m" (fun l => BodyResult.ok l)⟩

/-! Model.versions over the local filesystem. -/

/-- State of a `LocalFileSystem`: the configured root plus the sets of
existing directory and file paths (absolute, '/'-separated). -/
structure LocalState where
  root : String
  dirs : List String
  files : List String
deriving DecidableEq

/-- `os.path.join(root, path)` as used with the relative paths of the
library. -/
def localJoin (root path : String) : String :=
  if path = "" then root else root ++ "/" ++ path

/-- Strip the character sequence `a` from the front of `b`. -/
def dropPre : List Char → List Char → Option (List Char)
  | [], rest => some rest
  | _ :: _, [] => none
  | x :: xs, y :: ys => if x = y then dropPre xs ys else none

/-- The entry name of path `p` when `p` lies directly under directory
`base`. -/
def childName (base p : String) : Option String :=
  match dropPre (base.data ++ ['/']) p.data with
  | some rest =>
      if rest = [] ∨ rest.contains '/' then none else some (String.mk rest)
  | none => none

/-- local.py lines 33-36 `list`: `os.listdir` returns the bare entry names
directly under `root/path`. -/
def localList (st : LocalState) (path : String) : List String :=
  (st.dirs ++ st.files).filterMap (fun p => childName (localJoin st.root path) p)

/-- local.py lines 29-31 `isdir`: whether `root/path` is a directory. -/
def localIsdir (st : LocalState) (path : String) : Bool :=
  decide (localJoin st.root path ∈ st.dirs)

def isSpaceChar (c : Char) : Bool := c == ' ' || c == '\t' || c == '\n' || c == '\r'

def digitsToNat (l : List Char) : Nat := l.foldl (fun acc c => acc * 10 + (c.toNat - 48)) 0

/-- Python `int(s)`: optional surrounding whitespace, an optional sign,
then decimal digits (digit-grouping underscores elided); `none` models the
`ValueError` that `Model.versions` catches and skips. -/
def pyInt? (s : String) : Option Int :=
  let t := ((s.data.dropWhile isSpaceChar).reverse.dropWhile isSpaceChar).reverse
  let core := if t.take 1 = ['-'] ∨ t.take 1 = ['+'] then t.drop 1 else t
  if core = [] then none
  else if core.all Char.isDigit then
    if t.take 1 = ['-'] then some (-(digitsToNat core : Int))
    else some ((digitsToNat core : Int))
  else none

/-- model.py lines 87-102 `Model.versions`, parametrized over the Storage
capability: for each `f` in `fs.list(name)`, keep `int(f)` when
`fs.isdir(f)` holds and `f` parses as an integer; non-directories and
unparseable names are skipped silently.  Note the code passes the bare
entry name `f` to `isdir`, not `join(name, f)`. -/
def model_versions (listFn : String → List String) (isdirFn : String → Bool)
    (name : String) : List Int :=
  (listFn name).filterMap (fun f => if isdirFn f then pyInt? f else none)

/-- `Model.versions` composed with the `LocalFileSystem` of local.py: the
`isdir` call resolves the bare entry name against the repository root. -/
def versions_local (st : LocalState) (name : String) : List Int :=
  model_versions (localList st) (localIsdir st) name

/-- C10: the claim states that `versions` returns exactly the integers `n`
such that the listing of the model's root contains a directory entry whose
name parses as `n`.  With the `LocalFileSystem` from local.py (whose `list`
returns bare entry names, as the repository's own io test asserts), the
code checks `isdir` against `root/f` instead of `root/name/f`: here the
listing of model `m` contains the directory entry "0" (root/m/0 is a
directory) parsing as 0, yet `versions` returns the empty list because
root/0 does not exist. -/
theorem c10_versions_wrong_isdir_path :
    versions_local ⟨"root", ["root", "root/m", "root/m/0"], ["root/m/config.pbtxt"]⟩ "m"
      = [] ∧
    localList ⟨"root", ["root", "root/m", "root/m/0"], ["root/m/config.pbtxt"]⟩ "m"
      = ["0", "config.pbtxt"] ∧
    localIsdir ⟨"root", ["root", "root/m", "root/m/0"], ["root/m/config.pbtxt"]⟩ "m/0"
      = true ∧
    localIsdir ⟨"root", ["root", "root/m", "root/m/0"], ["root/m/config.pbtxt"]⟩ "0"
      = false ∧
    pyInt? "0" = some 0 := by
  decide

end GWQuiver
